import Mathlib

/-
Verification development for the stock-valuation repository's
update-detection-and-acquisition core.

Shallow embedding of:
  backend/modules/smart_update_system.py   (SmartUpdateSystem)
  backend/modules/tax_data_auto_updater.py (TaxDataAutoUpdater)
  backend/modules/tax_data_manager.py      (TaxDataManager)
  backend/tools/smart_updater_runner.py    (CLI runner)

Modelling conventions:
 - SQLite tables become Lean lists kept in insertion (rowid) order.
 - Timestamps are natural numbers (seconds); CURRENT_TIMESTAMP at insertion
   becomes an explicit `now` argument.
 - `UPDATE ... ORDER BY check_date DESC LIMIT 1` (smart_update_system.py
   lines 255-261 and 303-309) and `SELECT ... ORDER BY check_date DESC
   LIMIT 1` (lines 157-163) select the matching row with the greatest
   check_date; among equal check_dates the most recently inserted row is
   chosen (deterministic refinement of the unspecified tie order).
 - Network I/O is passed in as data: a probe result for HEAD requests, a
   per-dataset pipeline function for download/parse/import effects.
 - Python exceptions that a surrounding `except` swallows are modelled by
   the value the handler returns, exactly as in the source.
-/

namespace StockValuation

/-- The three data types iterated over in SmartUpdateSystem.smart_check
(line 88) and dispatched on in _execute_update (lines 287-292). -/
inductive DataType where
  | comparable
  | dividend
  | companySize
deriving DecidableEq, Repr

/-- A configuration value, as stored in the Python config dicts. -/
inductive CVal where
  | s (v : String)
  | n (v : Nat)
  | b (v : Bool)
  | nil
deriving DecidableEq, Repr

/-- A Python dict used as configuration: association list, first key wins. -/
abbrev Config : Type := List (String × CVal)

/-- Python dict indexing `cfg[k]` / `cfg.get(k)`: the value stored under
key `k`, if any. -/
def cfgGet (cfg : Config) (k : String) : Option CVal :=
  (cfg.find? (fun p => p.1 == k)).map (fun p => p.2)

/-- SmartUpdateSystem._get_default_config (smart_update_system.py lines
46-58). -/
def smartDefaultConfig : Config :=
  [("base_url", CVal.s "https://www.nta.go.jp"),
   ("check_interval_hours", CVal.n 168),
   ("lightweight_check", CVal.b true),
   ("notification_enabled", CVal.b true),
   ("auto_update", CVal.b false),
   ("max_retries", CVal.n 3),
   ("timeout", CVal.n 10),
   ("notification_email", CVal.s "admin@stock-valuator-pro.com"),
   ("notification_slack_webhook", CVal.nil)]

/-- SmartUpdateSystem.__init__ line 26: `self.config = config or
self._get_default_config()`. A `None` or empty dict argument falls back to
the defaults; any non-empty dict is taken as-is (no merging). -/
def resolveConfig : Option Config → Config
  | none => smartDefaultConfig
  | some c => if c = [] then smartDefaultConfig else c

/-- The partial config built by the CLI runner
(tools/smart_updater_runner.py lines 50-54). -/
def runnerConfig : Config :=
  [("check_interval_hours", CVal.n 168),
   ("notification_enabled", CVal.b true),
   ("auto_update", CVal.b false)]

/-- One row of the update_history table (smart_update_system.py lines
63-77). `_record_update_history` (lines 175-183) only ever populates
data_type, update_available and update_status; the remaining columns keep
their defaults (NULL / FALSE). -/
structure UpdateRecord where
  rid : Nat
  checkDate : Nat
  dataType : DataType
  lastModified : Option String
  etag : Option String
  contentHash : Option String
  updateAvailable : Bool
  updateStatus : String
  adminApproved : Bool
  updateExecutedAt : Option Nat
  notes : Option String
deriving DecidableEq, Repr

/-- The update_history table, in rowid (insertion) order. -/
abbrev Ledger : Type := List UpdateRecord

/-- AUTOINCREMENT id for the next inserted row. -/
def nextId (led : Ledger) : Nat :=
  (led.foldl (fun m r => max m r.rid) 0) + 1

/-- SmartUpdateSystem._record_update_history (lines 175-183): INSERT of
(data_type, update_available, 'pending'); every other column takes its
schema default, in particular last_modified and etag stay NULL. -/
def recordUpdateHistory (led : Ledger) (dt : DataType) (ua : Bool)
    (now : Nat) : Ledger :=
  led ++ [{ rid := nextId led, checkDate := now, dataType := dt,
            lastModified := none, etag := none, contentHash := none,
            updateAvailable := ua, updateStatus := "pending",
            adminApproved := false, updateExecutedAt := none,
            notes := none }]

/-- One step of the scan for the row `ORDER BY check_date DESC LIMIT 1`
selects: keep the candidate with the greatest check_date; ties go to the
row inserted later. -/
def pickStep (p : UpdateRecord → Bool) (i : Nat) (r : UpdateRecord)
    (acc : Option (Nat × UpdateRecord)) : Option (Nat × UpdateRecord) :=
  if p r then
    match acc with
    | none => some (i, r)
    | some (j, s) =>
        if s.checkDate ≤ r.checkDate then some (i, r) else some (j, s)
  else acc

/-- Scan for the row matching `p` with the greatest check_date (the row
`ORDER BY check_date DESC LIMIT 1` selects). Returns the row's index
together with the row. -/
def pickLatestAux (p : UpdateRecord → Bool) :
    List UpdateRecord → Nat → Option (Nat × UpdateRecord) →
    Option (Nat × UpdateRecord)
  | [], _, acc => acc
  | r :: rest, i, acc => pickLatestAux p rest (i + 1) (pickStep p i r acc)

/-- The matching row selected by `ORDER BY check_date DESC LIMIT 1`. -/
def pickLatest (p : UpdateRecord → Bool) (led : Ledger) :
    Option (Nat × UpdateRecord) :=
  pickLatestAux p led 0 none

/-- SmartUpdateSystem._get_last_check_info (lines 154-173): latest
update_history row for the data type, if any. -/
def getLastCheckInfo (led : Ledger) (dt : DataType) : Option UpdateRecord :=
  (pickLatest (fun r => r.dataType == dt) led).map (fun p => p.2)

/-- `UPDATE ... SET (f) WHERE p ORDER BY check_date DESC LIMIT 1`:
rewrite the latest matching row in place; no matching row leaves the
table unchanged. -/
def updateLatest (p : UpdateRecord → Bool) (f : UpdateRecord → UpdateRecord)
    (led : Ledger) : Ledger :=
  match pickLatest p led with
  | none => led
  | some (i, r) => List.set led i (f r)

/-- Headers returned by the HEAD probe (`response.headers.get(...)`,
lines 122 and 128): either header may be absent. -/
structure ProbeHeaders where
  lastModified : Option String
  etag : Option String
deriving DecidableEq, Repr

/-- Outcome of `self.session.head(url, ...)` plus `raise_for_status()`:
either headers, or an exception caught by the handler at lines 141-143. -/
inductive ProbeResult where
  | ok (h : ProbeHeaders)
  | netError
deriving DecidableEq, Repr

/-- Python truthiness of `response.headers.get(...)`: None and the empty
string are falsy. -/
def truthyS : Option String → Bool
  | none => false
  | some v => !(v == "")

/-- SmartUpdateSystem._lightweight_check (lines 104-143). Evaluation
order follows the source: `_get_data_url` reads config key "base_url"
(line 152), the HEAD call reads "timeout" (line 110); a missing key
raises KeyError, a failed request raises; every exception is caught at
lines 141-143 and turned into `False`. Otherwise the headers are compared
with the latest recorded row, with a 30-day forced recheck
(`timedelta(days=30)` = 2592000 seconds). -/
def lightweightCheck (cfg : Config) (pr : ProbeResult) (led : Ledger)
    (dt : DataType) (now : Nat) : Bool :=
  match cfgGet cfg "base_url" with
  | none => false
  | some _ =>
    match cfgGet cfg "timeout" with
    | none => false
    | some _ =>
      match pr with
      | ProbeResult.netError => false
      | ProbeResult.ok h =>
        match getLastCheckInfo led dt with
        | none => true
        | some last =>
            if truthyS h.lastModified && !(h.lastModified == last.lastModified)
            then true
            else if truthyS h.etag && !(h.etag == last.etag) then true
            else if 2592000 < now - last.checkDate then true
            else false

/-- SmartUpdateSystem._notify_update_available (lines 185-206) raises
KeyError iff "notification_enabled" is missing from the config (direct
index at line 187); the mail/slack helpers below it catch their own
exceptions and use `.get`. -/
def notifyRaises (cfg : Config) : Bool :=
  (cfgGet cfg "notification_enabled").isNone

/-- The body of smart_check's per-type loop (lines 88-96) for one data
type: run the lightweight check, notify if available (which can raise,
aborting the surrounding try), then record the outcome. `none` models an
exception escaping to smart_check's handler. -/
def smartCheckStep (cfg : Config) (pr : ProbeResult) (led : Ledger)
    (dt : DataType) (now : Nat) : Option Bool × Ledger :=
  let ua := lightweightCheck cfg pr led dt now
  if ua && notifyRaises cfg then (none, led)
  else (some ua, recordUpdateHistory led dt ua now)

/-- The loop of smart_check over a list of data types, threading the
ledger; an exception propagates (results discarded, records inserted so
far persist). -/
def smartCheckGo (cfg : Config) (probe : DataType → ProbeResult)
    (now : Nat) : List DataType → Ledger →
    Option (List (DataType × Bool)) × Ledger
  | [], led => (some [], led)
  | dt :: rest, led =>
      match smartCheckStep cfg (probe dt) led dt now with
      | (none, led') => (none, led')
      | (some ua, led') =>
          let res := smartCheckGo cfg probe now rest led'
          (res.1.map (fun tl => (dt, ua) :: tl), res.2)

/-- SmartUpdateSystem.smart_check (lines 80-102): checks the three data
types in order; the outer handler turns any exception into the empty
dict `{}` (modelled as the empty result list). -/
def smartCheck (cfg : Config) (probe : DataType → ProbeResult)
    (led : Ledger) (now : Nat) : List (DataType × Bool) × Ledger :=
  match smartCheckGo cfg probe now
      [DataType.comparable, DataType.dividend, DataType.companySize] led with
  | (some res, led') => (res, led')
  | (none, led') => ([], led')

/-- One row produced by TaxDataAutoUpdater._parse_comparable_data
(lines 464-471): industry code/name strings and four numeric ratios.
Python floats are modelled as rationals (no value arithmetic is done on
them, only parsing success/failure matters). -/
structure CRow where
  industry_code : String
  industry_name : String
  average_price : Rat
  average_dividend : Rat
  average_profit : Rat
  average_net_assets : Rat
deriving DecidableEq, Repr

/-- One row of the comparable_industry_data table
(tax_data_manager.py lines 19-33), keyed by
UNIQUE(year, month, industry_code). -/
structure SRow where
  year : Nat
  month : Nat
  industry_code : String
  industry_name : String
  average_price : Rat
  average_dividend : Rat
  average_profit : Rat
  average_net_assets : Rat
deriving DecidableEq, Repr

/-- Two rows hit the same UNIQUE(year, month, industry_code) key. -/
def sameKey (t r : SRow) : Bool :=
  t.year == r.year && t.month == r.month && t.industry_code == r.industry_code

/-- `INSERT OR REPLACE INTO comparable_industry_data ...`
(tax_data_manager.py lines 88-101): a conflicting row (same unique key)
is deleted and the new row inserted with a fresh rowid (hence at the end
in rowid order). -/
def insertOrReplaceComp (store : List SRow) (r : SRow) : List SRow :=
  store.filter (fun t => !(sameKey t r)) ++ [r]

/-- The storage row the import builds from a parsed row for period
(year, month). -/
def mkSRow (y m : Nat) (r : CRow) : SRow :=
  { year := y, month := m, industry_code := r.industry_code,
    industry_name := r.industry_name, average_price := r.average_price,
    average_dividend := r.average_dividend,
    average_profit := r.average_profit,
    average_net_assets := r.average_net_assets }

/-- TaxDataManager.import_comparable_industry_data (lines 70-109): one
INSERT OR REPLACE per parsed row, in row order. No DELETE of the period's
existing rows appears anywhere in the function. -/
def importComparableRows (store : List SRow) (rows : List CRow)
    (y m : Nat) : List SRow :=
  rows.foldl (fun st r => insertOrReplaceComp st (mkSRow y m r)) store

/-- A store row with the given unique key is present. -/
def hasKey (store : List SRow) (y m : Nat) (code : String) : Bool :=
  store.any (fun t => t.year == y && t.month == m && t.industry_code == code)

/-- The persistent state touched by the approval / scheduler paths:
the update_history ledger, the comparable_industry_data table, and the
set of backup files (as their creation timestamps). -/
structure SysState where
  ledger : Ledger
  store : List SRow
  backups : List Nat
deriving DecidableEq, Repr

/-- SmartUpdateSystem.approve_update (lines 248-277) together with
_execute_update (lines 279-298) and _record_update_execution (lines
300-310). The pipeline argument stands for the effect of
`updater._download_and_process_*_data` on the store: it returns the
success flag and the possibly-modified store. Source structure:
 1. UPDATE the latest row WHERE data_type = dt AND update_available=TRUE
    to admin_approved=TRUE, update_status='approved' (a non-matching
    WHERE simply updates nothing);
 2. unconditionally run _execute_update (no precondition is checked);
 3. on success, UPDATE the latest row WHERE data_type = dt AND
    admin_approved=TRUE to update_status='completed',
    update_executed_at=now.
None of the functions reached from _execute_update
(_download_and_process_*_data → _download_file / _convert_pdf_to_csv /
import_* in tax_data_manager.py) calls _create_backup, so the backups
component is untouched on this path (_create_backup is only invoked from
download_and_process_data, tax_data_auto_updater.py line 253). -/
def approveUpdate (st : SysState) (dt : DataType)
    (pl : DataType → List SRow → Bool × List SRow) (now : Nat) :
    Bool × SysState :=
  let led1 := updateLatest
      (fun r => r.dataType == dt && r.updateAvailable)
      (fun r => { r with adminApproved := true, updateStatus := "approved" })
      st.ledger
  let res := pl dt st.store
  let led2 :=
    if res.1 then
      updateLatest
        (fun r => r.dataType == dt && r.adminApproved)
        (fun r => { r with updateStatus := "completed",
                           updateExecutedAt := some now })
        led1
    else led1
  (res.1, { ledger := led2, store := res.2, backups := st.backups })

/-
Parsing (tax_data_auto_updater.py lines 453-473).

A physical text line is represented by its whitespace token list
(`parts = line.split()`). The candidate test `re.match(r'\d+',
line.strip())` holds exactly when the stripped line begins with a digit,
i.e. when the line has at least one token and that first token begins
with a digit — so the token list determines every observation the parser
makes of the line.
-/

/-- A text line, as its whitespace-separated tokens. -/
abbrev PyLine : Type := List String

/-- First character of the token is a decimal digit. -/
def startsDigit (t : String) : Bool :=
  match t.data with
  | [] => false
  | c :: _ => c.isDigit

/-- `re.match(r'\d+', line.strip())` in terms of the token list. -/
def leadingTokenNumeric (l : PyLine) : Bool :=
  match l with
  | [] => false
  | t :: _ => startsDigit t

/-- Value of an all-digit character list. -/
def digitsVal (l : List Char) : Nat :=
  l.foldl (fun a c => a * 10 + (c.toNat - 48)) 0

/-- `float(tok)` on an unsigned body: digits with an optional single
point, at least one digit overall. Models the plain decimal fragment of
Python float literals (exponents, underscores, inf/nan are outside the
grammar the documents use). -/
def pyFloatCore (l : List Char) : Option Rat :=
  let ip := l.takeWhile (fun c => c.isDigit)
  let rest := l.dropWhile (fun c => c.isDigit)
  match rest with
  | [] => if ip.isEmpty then none else some (digitsVal ip)
  | c :: frac =>
      if c == '.' && frac.all (fun d => d.isDigit) &&
         !(ip.isEmpty && frac.isEmpty) then
        some ((digitsVal ip : Rat) +
              (digitsVal frac : Rat) / ((10 : Rat) ^ frac.length))
      else none

/-- `float(tok)`: optional sign then the unsigned body. -/
def pyFloat (t : String) : Option Rat :=
  match t.data with
  | '+' :: rest => pyFloatCore rest
  | '-' :: rest => (pyFloatCore rest).map (fun q => -q)
  | l => pyFloatCore l

/-- Outcome of one loop iteration of _parse_comparable_data
(lines 460-471): the line is skipped as noise or for having too few
tokens, contributes a row, or raises ValueError from a `float(...)`
call (aborting the whole parse). -/
inductive LineStep where
  | skip
  | err
  | row (r : CRow)
deriving DecidableEq, Repr

/-- One iteration of _parse_comparable_data's loop: candidate lines
(stripped line starts with a digit) with at least 5 tokens are converted;
`float` is applied to tokens 2, 3, 4 and, when present, 5; a malformed
token raises. Tokens 0 and 1 are taken verbatim; a missing token 5
defaults the net-assets ratio to 0 (line 470). -/
def parseCompLine (l : PyLine) : LineStep :=
  if leadingTokenNumeric l then
    if 5 ≤ l.length then
      match pyFloat (l.getD 2 ""), pyFloat (l.getD 3 ""),
            pyFloat (l.getD 4 "") with
      | some p, some d, some pr =>
          if 5 < l.length then
            match pyFloat (l.getD 5 "") with
            | some na =>
                LineStep.row { industry_code := l.getD 0 "",
                               industry_name := l.getD 1 "",
                               average_price := p, average_dividend := d,
                               average_profit := pr,
                               average_net_assets := na }
            | none => LineStep.err
          else
            LineStep.row { industry_code := l.getD 0 "",
                           industry_name := l.getD 1 "",
                           average_price := p, average_dividend := d,
                           average_profit := pr, average_net_assets := 0 }
      | _, _, _ => LineStep.err
    else LineStep.skip
  else LineStep.skip

/-- TaxDataAutoUpdater._parse_comparable_data (lines 453-473) over the
list of text lines: rows accumulate in line order; an uncaught ValueError
from any line aborts the whole parse (there is no per-line handler; the
exception escapes to _convert_pdf_to_csv's handler, lines 449-451). -/
def parseCompLines : List PyLine → Except Unit (List CRow)
  | [] => Except.ok []
  | l :: rest =>
      match parseCompLine l with
      | LineStep.skip => parseCompLines rest
      | LineStep.err => Except.error ()
      | LineStep.row r => (parseCompLines rest).map (fun rs => r :: rs)

/-- Spec-side predicate (claim C7's "noise line"): the line's leading
token does not match the numeric-code pattern; an empty line has no
leading token and counts as noise. -/
def noiseLine (l : PyLine) : Bool :=
  !(leadingTokenNumeric l)

/-- Spec-side predicate (claim C7's "data line"): leading numeric code,
at least the 5 tokens the schema requires, and every token the parser
converts is a valid numeric literal. -/
def wellFormedDataLine (l : PyLine) : Bool :=
  leadingTokenNumeric l && decide (5 ≤ l.length) &&
  (pyFloat (l.getD 2 "")).isSome && (pyFloat (l.getD 3 "")).isSome &&
  (pyFloat (l.getD 4 "")).isSome &&
  (if 5 < l.length then (pyFloat (l.getD 5 "")).isSome else true)

/-- TaxDataAutoUpdater.check_for_updates (lines 62-85): any of the three
per-dataset checks reporting a change. The per-dataset outcomes are
supplied as data (they depend on the network). -/
def checkForUpdates (upd : DataType → Bool) : Bool :=
  upd DataType.comparable || upd DataType.dividend || upd DataType.companySize

/-- TaxDataAutoUpdater.download_and_process_data (lines 228-259): for
each dataset whose check reports a change, run its
download-convert-import pipeline (modelled by `pl`, acting on the store);
`success &= ...` accumulates without short-circuiting across datasets; a
backup is created (timestamped `now`) only when every attempted pipeline
succeeded (lines 251-253). The ledger is never touched on this path. -/
def downloadAndProcessData (upd : DataType → Bool)
    (pl : DataType → List SRow → Bool × List SRow) (now : Nat)
    (st : SysState) : Bool × SysState :=
  let r1 := if upd DataType.comparable
            then pl DataType.comparable st.store else (true, st.store)
  let r2 := if upd DataType.dividend
            then pl DataType.dividend r1.2 else (true, r1.2)
  let r3 := if upd DataType.companySize
            then pl DataType.companySize r2.2 else (true, r2.2)
  let ok := r1.1 && r2.1 && r3.1
  (ok, { ledger := st.ledger, store := r3.2,
         backups := if ok then st.backups ++ [now] else st.backups })

/-- TaxDataAutoUpdater._scheduled_check (lines 552-561), the body run on
every scheduler tick (start_scheduler, lines 531-550): if
check_for_updates() reports any change, download_and_process_data() runs
immediately. The configuration is in scope (`self.config`) but the
method consults no flag of it and no approval state. -/
def scheduledCheck (cfg : Config) (upd : DataType → Bool)
    (pl : DataType → List SRow → Bool × List SRow) (now : Nat)
    (st : SysState) : SysState :=
  if checkForUpdates upd then (downloadAndProcessData upd pl now st).2
  else st

/-! ## Helper lemmas -/

theorem pickStep_no_match (p : UpdateRecord → Bool) (i : Nat)
    (r : UpdateRecord) (acc : Option (Nat × UpdateRecord))
    (h : p r = false) : pickStep p i r acc = acc := by
  simp [pickStep, h]

theorem pickLatestAux_no_match (p : UpdateRecord → Bool) :
    ∀ (l : List UpdateRecord) (i : Nat) (acc : Option (Nat × UpdateRecord)),
    (∀ s ∈ l, p s = false) → pickLatestAux p l i acc = acc := by
  intro l
  induction l with
  | nil => intro i acc _; rfl
  | cons a t ih =>
      intro i acc h
      have ha : p a = false := h a (List.mem_cons_self a t)
      simp only [pickLatestAux, pickStep_no_match p i a acc ha]
      exact ih (i + 1) acc (fun s hs => h s (List.mem_cons_of_mem a hs))

theorem pickLatest_no_match (p : UpdateRecord → Bool) (led : Ledger)
    (h : ∀ s ∈ led, p s = false) : pickLatest p led = none :=
  pickLatestAux_no_match p led 0 none h

theorem updateLatest_no_match (p : UpdateRecord → Bool)
    (f : UpdateRecord → UpdateRecord) (led : Ledger)
    (h : ∀ s ∈ led, p s = false) : updateLatest p f led = led := by
  unfold updateLatest
  rw [pickLatest_no_match p led h]

theorem pickStep_last (p : UpdateRecord → Bool) (i : Nat)
    (r : UpdateRecord) (acc : Option (Nat × UpdateRecord))
    (hr : p r = true)
    (hacc : acc = none ∨ ∃ j s, acc = some (j, s) ∧ p s = true ∧
        s.checkDate ≤ r.checkDate) :
    pickStep p i r acc = some (i, r) := by
  rcases hacc with hn | ⟨j, s, he, _, hle⟩
  · subst hn
    simp [pickStep, hr]
  · subst he
    simp [pickStep, hr, hle]

theorem pickStep_preserves (p : UpdateRecord → Bool) (r a : UpdateRecord)
    (i : Nat) (acc : Option (Nat × UpdateRecord))
    (hale : p a = true → a.checkDate ≤ r.checkDate)
    (hacc : acc = none ∨ ∃ j s, acc = some (j, s) ∧ p s = true ∧
        s.checkDate ≤ r.checkDate) :
    pickStep p i a acc = none ∨ ∃ j s, pickStep p i a acc = some (j, s) ∧
      p s = true ∧ s.checkDate ≤ r.checkDate := by
  by_cases hpa : p a = true
  · rcases hacc with hn | ⟨j, s, he, hps, hsle⟩
    · subst hn
      exact Or.inr ⟨i, a, by simp [pickStep, hpa], hpa, hale hpa⟩
    · subst he
      by_cases hcd : s.checkDate ≤ a.checkDate
      · exact Or.inr ⟨i, a, by simp [pickStep, hpa, hcd], hpa, hale hpa⟩
      · exact Or.inr ⟨j, s, by simp [pickStep, hpa, hcd], hps, hsle⟩
  · have hpa' : p a = false := by
      cases hb : p a
      · rfl
      · exact absurd hb hpa
    rw [pickStep_no_match p i a acc hpa']
    exact hacc

theorem pickLatestAux_append_last (p : UpdateRecord → Bool)
    (r : UpdateRecord) (hr : p r = true) :
    ∀ (l : List UpdateRecord) (i : Nat) (acc : Option (Nat × UpdateRecord)),
    (∀ s ∈ l, p s = true → s.checkDate ≤ r.checkDate) →
    (acc = none ∨ ∃ j s, acc = some (j, s) ∧ p s = true ∧
        s.checkDate ≤ r.checkDate) →
    pickLatestAux p (l ++ [r]) i acc = some (i + l.length, r) := by
  intro l
  induction l with
  | nil =>
      intro i acc _ hacc
      show pickLatestAux p [] (i + 1) (pickStep p i r acc) = some (i + 0, r)
      rw [pickStep_last p i r acc hr hacc]
      rfl
  | cons a t ih =>
      intro i acc h hacc
      have ht : ∀ s ∈ t, p s = true → s.checkDate ≤ r.checkDate :=
        fun s hs => h s (List.mem_cons_of_mem a hs)
      have hale : p a = true → a.checkDate ≤ r.checkDate :=
        h a (List.mem_cons_self a t)
      show pickLatestAux p (t ++ [r]) (i + 1) (pickStep p i a acc) =
        some (i + (t.length + 1), r)
      rw [ih (i + 1) (pickStep p i a acc) ht
        (pickStep_preserves p r a i acc hale hacc)]
      have harith : i + 1 + t.length = i + (t.length + 1) := by omega
      rw [harith]

theorem pickLatest_append_last (p : UpdateRecord → Bool)
    (l : List UpdateRecord) (r : UpdateRecord) (hr : p r = true)
    (hl : ∀ s ∈ l, p s = true → s.checkDate ≤ r.checkDate) :
    pickLatest p (l ++ [r]) = some (l.length, r) := by
  have := pickLatestAux_append_last p r hr l 0 none hl (Or.inl rfl)
  simpa using this

theorem set_append_length {α : Type} (l : List α) (r x : α) :
    (l ++ [r]).set l.length x = l ++ [x] := by
  induction l with
  | nil => rfl
  | cons a t ih => simp [List.set, ih]

theorem updateLatest_append_last (p : UpdateRecord → Bool)
    (f : UpdateRecord → UpdateRecord) (l : List UpdateRecord)
    (r : UpdateRecord) (hr : p r = true)
    (hl : ∀ s ∈ l, p s = true → s.checkDate ≤ r.checkDate) :
    updateLatest p f (l ++ [r]) = l ++ [f r] := by
  unfold updateLatest
  rw [pickLatest_append_last p l r hr hl]
  exact set_append_length l r (f r)

theorem parseCompLine_of_noise (l : PyLine) (h : noiseLine l = true) :
    parseCompLine l = LineStep.skip := by
  have h' : leadingTokenNumeric l = false := by
    unfold noiseLine at h
    cases hb : leadingTokenNumeric l
    · rfl
    · rw [hb] at h
      exact absurd h (by decide)
  unfold parseCompLine
  simp [h']

theorem wellFormed_not_noise (l : PyLine) (h : wellFormedDataLine l = true) :
    noiseLine l = false := by
  unfold wellFormedDataLine at h
  unfold noiseLine
  rcases Bool.and_eq_true_iff.mp h with ⟨h1, _⟩
  rcases Bool.and_eq_true_iff.mp h1 with ⟨h2, _⟩
  rcases Bool.and_eq_true_iff.mp h2 with ⟨h3, _⟩
  rcases Bool.and_eq_true_iff.mp h3 with ⟨h4, _⟩
  rcases Bool.and_eq_true_iff.mp h4 with ⟨h5, _⟩
  simp [h5]

theorem noise_not_wellFormed (l : PyLine) (h : noiseLine l = true) :
    wellFormedDataLine l = false := by
  have h' : leadingTokenNumeric l = false := by
    unfold noiseLine at h
    cases hb : leadingTokenNumeric l
    · rfl
    · rw [hb] at h
      exact absurd h (by decide)
  unfold wellFormedDataLine
  simp [h']

theorem parseCompLine_of_wellFormed (l : PyLine)
    (h : wellFormedDataLine l = true) :
    ∃ r, parseCompLine l = LineStep.row r := by
  unfold wellFormedDataLine at h
  rcases Bool.and_eq_true_iff.mp h with ⟨h1, h6⟩
  rcases Bool.and_eq_true_iff.mp h1 with ⟨h2, h5⟩
  rcases Bool.and_eq_true_iff.mp h2 with ⟨h3, h4⟩
  rcases Bool.and_eq_true_iff.mp h3 with ⟨hlead, htok2⟩
  rcases Bool.and_eq_true_iff.mp hlead with ⟨hnum, hge⟩
  obtain ⟨p, hp⟩ := Option.isSome_iff_exists.mp htok2
  obtain ⟨d, hd⟩ := Option.isSome_iff_exists.mp h4
  obtain ⟨pr, hpr⟩ := Option.isSome_iff_exists.mp h5
  have hge' : 5 ≤ l.length := of_decide_eq_true hge
  have hred : parseCompLine l =
      (if 5 < l.length then
        match pyFloat (l.getD 5 "") with
        | some na =>
            LineStep.row { industry_code := l.getD 0 "",
                           industry_name := l.getD 1 "",
                           average_price := p, average_dividend := d,
                           average_profit := pr, average_net_assets := na }
        | none => LineStep.err
      else
        LineStep.row { industry_code := l.getD 0 "",
                       industry_name := l.getD 1 "",
                       average_price := p, average_dividend := d,
                       average_profit := pr, average_net_assets := 0 }) := by
    unfold parseCompLine
    rw [if_pos hnum, if_pos hge', hp, hd, hpr]
  by_cases h5l : 5 < l.length
  · rw [if_pos h5l] at h6
    obtain ⟨na, hna⟩ := Option.isSome_iff_exists.mp h6
    refine ⟨{ industry_code := l.getD 0 "", industry_name := l.getD 1 "",
              average_price := p, average_dividend := d,
              average_profit := pr, average_net_assets := na }, ?_⟩
    rw [hred, if_pos h5l, hna]
  · refine ⟨{ industry_code := l.getD 0 "", industry_name := l.getD 1 "",
              average_price := p, average_dividend := d,
              average_profit := pr, average_net_assets := 0 }, ?_⟩
    rw [hred, if_neg h5l]

theorem mem_insertOrReplaceComp (st : List SRow) (r t : SRow)
    (ht : t ∈ st) (hk : sameKey t r = false) :
    t ∈ insertOrReplaceComp st r := by
  unfold insertOrReplaceComp
  exact List.mem_append_left _ (List.mem_filter.mpr ⟨ht, by simp [hk]⟩)

theorem hasKey_insertOrReplaceComp (st : List SRow) (r : SRow)
    (y m : Nat) (code : String) (h : hasKey st y m code = true) :
    hasKey (insertOrReplaceComp st r) y m code = true := by
  unfold hasKey at h ⊢
  obtain ⟨t, ht, hmatch⟩ := List.any_eq_true.mp h
  rcases Bool.and_eq_true_iff.mp hmatch with ⟨hym, hcode⟩
  rcases Bool.and_eq_true_iff.mp hym with ⟨hy, hm⟩
  by_cases hk : sameKey t r = true
  · rcases Bool.and_eq_true_iff.mp hk with ⟨hym', hcode'⟩
    rcases Bool.and_eq_true_iff.mp hym' with ⟨hy', hm'⟩
    apply List.any_eq_true.mpr
    refine ⟨r, List.mem_append_right _ (List.mem_singleton.mpr rfl), ?_⟩
    have ey : r.year = y := by
      have e1 : t.year = r.year := eq_of_beq hy'
      have e2 : t.year = y := eq_of_beq hy
      omega
    have em : r.month = m := by
      have e1 : t.month = r.month := eq_of_beq hm'
      have e2 : t.month = m := eq_of_beq hm
      omega
    have ec : r.industry_code = code := by
      have e1 : t.industry_code = r.industry_code := by
        exact eq_of_beq hcode'
      have e2 : t.industry_code = code := eq_of_beq hcode
      rw [← e1, e2]
    simp [ey, em, ec]
  · have hk' : sameKey t r = false := by
      cases hb : sameKey t r
      · rfl
      · exact absurd hb hk
    apply List.any_eq_true.mpr
    exact ⟨t, mem_insertOrReplaceComp st r t ht hk', hmatch⟩

theorem hasKey_insertOrReplaceComp_self (st : List SRow) (y m : Nat)
    (r : CRow) :
    hasKey (insertOrReplaceComp st (mkSRow y m r)) y m r.industry_code
      = true := by
  unfold hasKey insertOrReplaceComp
  apply List.any_eq_true.mpr
  refine ⟨mkSRow y m r, List.mem_append_right _ (List.mem_singleton.mpr rfl),
    ?_⟩
  simp [mkSRow]

theorem hasKey_importComparableRows (rows : List CRow) :
    ∀ (st : List SRow) (y m : Nat) (code : String),
    hasKey st y m code = true →
    hasKey (importComparableRows st rows y m) y m code = true := by
  induction rows with
  | nil => intro st y m code h; exact h
  | cons r rest ih =>
      intro st y m code h
      exact ih _ y m code (hasKey_insertOrReplaceComp st (mkSRow y m r)
        y m code h)

theorem mem_importComparableRows (rows : List CRow) :
    ∀ (store : List SRow) (y m : Nat) (s : SRow), s ∈ store →
    (∀ r ∈ rows, sameKey s (mkSRow y m r) = false) →
    s ∈ importComparableRows store rows y m := by
  induction rows with
  | nil => intro store y m s hs _; exact hs
  | cons r rest ih =>
      intro store y m s hs hnc
      exact ih (insertOrReplaceComp store (mkSRow y m r)) y m s
        (mem_insertOrReplaceComp store (mkSRow y m r) s hs
          (hnc r (List.mem_cons_self r rest)))
        (fun q hq => hnc q (List.mem_cons_of_mem r hq))

theorem keys_importComparableRows (rows : List CRow) :
    ∀ (store : List SRow) (y m : Nat) (r : CRow), r ∈ rows →
    hasKey (importComparableRows store rows y m) y m r.industry_code
      = true := by
  induction rows with
  | nil => intro store y m r hr; exact absurd hr (List.not_mem_nil r)
  | cons q rest ih =>
      intro store y m r hr
      rcases List.mem_cons.mp hr with he | hm
      · subst he
        exact hasKey_importComparableRows rest _ y m r.industry_code
          (hasKey_insertOrReplaceComp_self store y m r)
      · exact ih _ y m r hm

/-! ## Concrete fixtures used by counterexamples and witnesses -/

/-- A probe whose headers are present and stable across calls. -/
def probeJan2024 : ProbeResult :=
  ProbeResult.ok { lastModified := some "Mon, 01 Jan 2024 07:00:00 GMT",
                   etag := some "abc123" }

/-- A checked, update-available, not-yet-approved history row. -/
def recPending : UpdateRecord :=
  { rid := 1, checkDate := 100, dataType := DataType.comparable,
    lastModified := none, etag := none, contentHash := none,
    updateAvailable := true, updateStatus := "pending",
    adminApproved := false, updateExecutedAt := none, notes := none }

/-- A stored comparable-industry row for period 2024-06, code 5300. -/
def rowOld : SRow :=
  { year := 2024, month := 6, industry_code := "5300",
    industry_name := "construction", average_price := 1,
    average_dividend := 1, average_profit := 1, average_net_assets := 1 }

/-- A freshly parsed row with a different industry code, 5400. -/
def rowNew : CRow :=
  { industry_code := "5400", industry_name := "retail", average_price := 2,
    average_dividend := 2, average_profit := 2, average_net_assets := 2 }

/-- A well-formed comparable-industry document: two data lines
(codes 101 and 102) among three noise lines (a header line, a blank
line, a trailing line). -/
def demoDoc : List PyLine :=
  [["industry", "header"],
   ["101", "mfg", "500", "10", "80", "300"],
   [],
   ["102", "manuf", "450", "8", "70"],
   ["end-of-table"]]

/-! ## Claim theorems -/

/-- C1: the claim says that two `check` calls against an unchanged remote
resource (same Last-Modified and ETag both times, second call within the
30-day window) yield `update_available = false` on the second call. The
code violates this: `_record_update_history` stores NULL for the
last_modified/etag columns the schema defines and `_get_last_check_info`
reads back, so the second check compares the probe's header against NULL,
sees a difference, and reports `update_available = true`. This theorem
evaluates the embedded code at the failing input: first check at time
1000 (recorded), second check one day later with the identical probe
headers returns true, and the recorded row indeed holds no validators. -/
theorem c1_second_check_reports_update :
    (smartCheckStep smartDefaultConfig probeJan2024 []
        DataType.comparable 1000).1 = some true ∧
    lightweightCheck smartDefaultConfig probeJan2024
        (smartCheckStep smartDefaultConfig probeJan2024 []
          DataType.comparable 1000).2
        DataType.comparable 87400 = true ∧
    (getLastCheckInfo
        (smartCheckStep smartDefaultConfig probeJan2024 []
          DataType.comparable 1000).2
        DataType.comparable).map (fun u => (u.lastModified, u.etag)) =
      some (none, none) := by
  decide

/-- C2 counterexample: the claim says a network/timeout failure of the
probe creates no record and is surfaced as a transient error, never as
`update_available = false`. Running the embedded smart_check with every
probe failing: it returns false for all three data types and appends
three update_history rows with update_available = false — the error is
swallowed, a record is created, and false is fabricated. -/
theorem c2_network_error_recorded_as_no_update :
    (smartCheck smartDefaultConfig (fun _ => ProbeResult.netError) [] 0).1 =
      [(DataType.comparable, false), (DataType.dividend, false),
       (DataType.companySize, false)] ∧
    ((smartCheck smartDefaultConfig (fun _ => ProbeResult.netError)
        [] 0).2).map (fun u => (u.dataType, u.updateAvailable)) =
      [(DataType.comparable, false), (DataType.dividend, false),
       (DataType.companySize, false)] := by
  decide

/-- C2 (amended): on a network/timeout failure of the probe,
`_lightweight_check` swallows the exception and returns
`update_available = false`, and the smart_check loop body appends an
update_history record with update_available = false — for every
configuration, ledger, data type and time. No error reaches the caller. -/
theorem c2_amended_network_error_swallowed (cfg : Config) (led : Ledger)
    (dt : DataType) (now : Nat) :
    lightweightCheck cfg ProbeResult.netError led dt now = false ∧
    smartCheckStep cfg ProbeResult.netError led dt now =
      (some false, recordUpdateHistory led dt false now) := by
  have h : lightweightCheck cfg ProbeResult.netError led dt now = false := by
    unfold lightweightCheck
    cases cfgGet cfg "base_url" with
    | none => rfl
    | some v =>
        cases cfgGet cfg "timeout" with
        | none => rfl
        | some w => rfl
  refine ⟨h, ?_⟩
  simp [smartCheckStep, h]

/-- C3 counterexample: the claim says approve on a DatasetType with no
checked update-available record fails with NothingToApprove, leaves the
ledger unmodified, and executes no acquisition. On an empty ledger the
embedded approve_update leaves the ledger alone but unconditionally runs
the acquisition pipeline (the store gains the imported row) and returns
success — there is no NothingToApprove failure anywhere in the code. -/
theorem c3_no_pending_approve_executes_pipeline :
    approveUpdate { ledger := [], store := [], backups := [] }
        DataType.comparable (fun _ s => (true, s ++ [rowOld])) 5 =
      (true, { ledger := [], store := [rowOld], backups := [] }) := by
  decide

/-- C3 (amended): approve_update checks no precondition. When the ledger
holds no update-available and no approved record for the data type, both
UPDATE statements match nothing, yet the acquisition pipeline still runs
on the store and its success flag is returned; the call never fails with
a NothingToApprove error. -/
theorem c3_amended_no_precondition_check (st : SysState) (dt : DataType)
    (pl : DataType → List SRow → Bool × List SRow) (now : Nat)
    (h1 : ∀ u ∈ st.ledger, (u.dataType == dt && u.updateAvailable) = false)
    (h2 : ∀ u ∈ st.ledger, (u.dataType == dt && u.adminApproved) = false) :
    approveUpdate st dt pl now =
      ((pl dt st.store).1,
       { ledger := st.ledger, store := (pl dt st.store).2,
         backups := st.backups }) := by
  simp only [approveUpdate]
  rw [updateLatest_no_match _ _ _ h1]
  cases hres : (pl dt st.store).1 with
  | false => simp [hres]
  | true => simp [hres, updateLatest_no_match _ _ _ h2]

/-- C3 witness: the amended statement at the concrete empty-ledger
input. -/
theorem c3_amended_witness :
    (∀ u ∈ ([] : Ledger),
      (u.dataType == DataType.comparable && u.updateAvailable) = false) ∧
    approveUpdate { ledger := [], store := [], backups := [] }
        DataType.comparable (fun _ s => (true, s ++ [rowOld])) 5 =
      (((fun (_ : DataType) (s : List SRow) => (true, s ++ [rowOld]))
          DataType.comparable []).1,
       { ledger := [],
         store := ((fun (_ : DataType) (s : List SRow) =>
           (true, s ++ [rowOld])) DataType.comparable []).2,
         backups := [] }) :=
  ⟨by simp,
   c3_amended_no_precondition_check
     { ledger := [], store := [], backups := [] } DataType.comparable
     (fun _ s => (true, s ++ [rowOld])) 5 (by simp) (by simp)⟩

/-- C4 counterexample: the claim says that after a successful approve a
BackupSnapshot exists with timestamp at least the completion timestamp.
Approving the pending record with a succeeding pipeline completes the
record (update_executed_at = 7) but the backup set stays empty: the
approve path never reaches _create_backup. -/
theorem c4_no_backup_on_approve_path :
    approveUpdate { ledger := [recPending], store := [], backups := [] }
        DataType.comparable (fun _ s => (true, s)) 7 =
      (true,
       { ledger := [{ recPending with
                      adminApproved := true,
                      updateStatus := "completed",
                      updateExecutedAt := some 7 }],
         store := [], backups := [] }) ∧
    (approveUpdate { ledger := [recPending], store := [], backups := [] }
        DataType.comparable (fun _ s => (true, s)) 7).2.backups = [] := by
  decide

/-- C4 (amended): after a successful approve of the latest
update-available record, exactly that record transitions to status
"completed" with its execution timestamp set (every other row is
untouched), and no BackupSnapshot is created on this path — the backups
component is unchanged. -/
theorem c4_amended_completion_without_backup (pre : Ledger)
    (r : UpdateRecord) (store : List SRow) (bks : List Nat) (dt : DataType)
    (pl : DataType → List SRow → Bool × List SRow) (now : Nat)
    (hdt : r.dataType = dt) (hav : r.updateAvailable = true)
    (hpre : ∀ s ∈ pre, s.dataType = dt → s.updateAvailable = true →
      s.checkDate ≤ r.checkDate)
    (hnoap : ∀ s ∈ pre, s.dataType = dt → s.adminApproved = false)
    (hpl : (pl dt store).1 = true) :
    approveUpdate { ledger := pre ++ [r], store := store, backups := bks }
        dt pl now =
      (true,
       { ledger := pre ++ [{ r with
                             adminApproved := true,
                             updateStatus := "completed",
                             updateExecutedAt := some now }],
         store := (pl dt store).2, backups := bks }) := by
  have hp1r : (r.dataType == dt && r.updateAvailable) = true := by
    simp [hdt, hav]
  have hl1 : ∀ s ∈ pre, (s.dataType == dt && s.updateAvailable) = true →
      s.checkDate ≤ r.checkDate := by
    intro s hs hps
    rcases Bool.and_eq_true_iff.mp hps with ⟨hsd, hsa⟩
    exact hpre s hs (eq_of_beq hsd) hsa
  have e1 := updateLatest_append_last
    (fun u => u.dataType == dt && u.updateAvailable)
    (fun u => { u with adminApproved := true, updateStatus := "approved" })
    pre r hp1r hl1
  have hp2r :
      (({ r with adminApproved := true, updateStatus := "approved"
        } : UpdateRecord).dataType == dt &&
       ({ r with adminApproved := true, updateStatus := "approved"
        } : UpdateRecord).adminApproved) = true := by
    simp [hdt]
  have hl2 : ∀ s ∈ pre, (s.dataType == dt && s.adminApproved) = true →
      s.checkDate ≤ ({ r with
                       adminApproved := true,
                       updateStatus := "approved" } : UpdateRecord).checkDate := by
    intro s hs hps
    rcases Bool.and_eq_true_iff.mp hps with ⟨hsd, hsa⟩
    exact absurd hsa (by simp [hnoap s hs (eq_of_beq hsd)])
  have e2 := updateLatest_append_last
    (fun u => u.dataType == dt && u.adminApproved)
    (fun u => { u with
                updateStatus := "completed",
                updateExecutedAt := some now })
    pre { r with adminApproved := true, updateStatus := "approved" }
    hp2r hl2
  simp only [approveUpdate]
  rw [e1, hpl, if_pos rfl, e2]

/-- C4 witness: the amended statement at the concrete one-record
ledger. -/
theorem c4_amended_witness :
    recPending.dataType = DataType.comparable ∧
    recPending.updateAvailable = true ∧
    approveUpdate
        { ledger := [] ++ [recPending], store := [], backups := [] }
        DataType.comparable (fun _ s => (true, s)) 7 =
      (true,
       { ledger := [] ++ [{ recPending with
                            adminApproved := true,
                            updateStatus := "completed",
                            updateExecutedAt := some 7 }],
         store := ((fun (_ : DataType) (s : List SRow) => (true, s))
           DataType.comparable ([] : List SRow)).2, backups := [] }) :=
  ⟨by decide, by decide,
   c4_amended_completion_without_backup [] recPending [] []
     DataType.comparable (fun _ s => (true, s)) 7 (by decide) (by decide)
     (by simp) (by simp) rfl⟩

/-- C5 counterexample: the claim says a failed pipeline leaves the record
in a terminal Failed status with the error in its notes and surfaces the
error. Approving the pending record with a failing pipeline returns the
bare flag false, and the record is left in status "approved" with empty
notes — no Failed status, no error information, nothing raised. -/
theorem c5_failure_leaves_status_approved :
    approveUpdate { ledger := [recPending], store := [], backups := [] }
        DataType.comparable (fun _ s => (false, s)) 7 =
      (false,
       { ledger := [{ recPending with
                      adminApproved := true,
                      updateStatus := "approved" }],
         store := [], backups := [] }) ∧
    ((approveUpdate { ledger := [recPending], store := [], backups := [] }
        DataType.comparable (fun _ s => (false, s)) 7).2.ledger).map
      (fun u => (u.updateStatus, u.notes)) = [("approved", none)] := by
  decide

/-- C5 (amended): when the pipeline fails, approve_update returns false;
the approved record keeps status "approved" (admin_approved = true), its
notes stay empty, no Failed transition is recorded, and the error is not
surfaced beyond the boolean. -/
theorem c5_amended_failure_not_recorded (pre : Ledger) (r : UpdateRecord)
    (store : List SRow) (bks : List Nat) (dt : DataType)
    (pl : DataType → List SRow → Bool × List SRow) (now : Nat)
    (hdt : r.dataType = dt) (hav : r.updateAvailable = true)
    (hpre : ∀ s ∈ pre, s.dataType = dt → s.updateAvailable = true →
      s.checkDate ≤ r.checkDate)
    (hpl : (pl dt store).1 = false) :
    approveUpdate { ledger := pre ++ [r], store := store, backups := bks }
        dt pl now =
      (false,
       { ledger := pre ++ [{ r with
                             adminApproved := true,
                             updateStatus := "approved" }],
         store := (pl dt store).2, backups := bks }) := by
  have hp1r : (r.dataType == dt && r.updateAvailable) = true := by
    simp [hdt, hav]
  have hl1 : ∀ s ∈ pre, (s.dataType == dt && s.updateAvailable) = true →
      s.checkDate ≤ r.checkDate := by
    intro s hs hps
    rcases Bool.and_eq_true_iff.mp hps with ⟨hsd, hsa⟩
    exact hpre s hs (eq_of_beq hsd) hsa
  have e1 := updateLatest_append_last
    (fun u => u.dataType == dt && u.updateAvailable)
    (fun u => { u with adminApproved := true, updateStatus := "approved" })
    pre r hp1r hl1
  simp only [approveUpdate]
  rw [e1, hpl]
  simp

/-- C5 witness: the amended statement at the concrete one-record
ledger. -/
theorem c5_amended_witness :
    recPending.dataType = DataType.comparable ∧
    recPending.updateAvailable = true ∧
    approveUpdate
        { ledger := [] ++ [recPending], store := [], backups := [] }
        DataType.comparable (fun _ s => (false, s)) 7 =
      (false,
       { ledger := [] ++ [{ recPending with
                            adminApproved := true,
                            updateStatus := "approved" }],
         store := ((fun (_ : DataType) (s : List SRow) => (false, s))
           DataType.comparable ([] : List SRow)).2, backups := [] }) :=
  ⟨by decide, by decide,
   c5_amended_failure_not_recorded [] recPending [] []
     DataType.comparable (fun _ s => (false, s)) 7 (by decide) (by decide)
     (by simp) rfl⟩

/-- C6 counterexample: the claim says a malformed numeric token raises
only when zero valid rows result, partial success being accepted. A
two-line document whose first line parses to a valid row and whose
second candidate line has a malformed ratio token makes the whole parse
raise (the first line alone parses to one row), so one valid row was
available yet the parse failed. -/
theorem c6_one_bad_line_fails_whole_parse :
    parseCompLines [["12", "mfg", "3.5", "2", "7"],
      ["13", "svc", "x9", "2", "7"]] = Except.error () ∧
    (parseCompLines [["12", "mfg", "3.5", "2", "7"]]).map List.length =
      Except.ok 1 :=
  ⟨rfl, rfl⟩

/-- C6 (amended): a malformed numeric token in any candidate line
(leading numeric token, at least 5 tokens) aborts the entire parse with
an error, regardless of how many other lines yield valid rows — there is
no per-line handler, so partial success is never accepted. -/
theorem c6_amended_any_bad_candidate_aborts (lines : List PyLine)
    (l : PyLine) (hmem : l ∈ lines)
    (herr : parseCompLine l = LineStep.err) :
    parseCompLines lines = Except.error () := by
  induction lines with
  | nil => exact absurd hmem (List.not_mem_nil l)
  | cons a rest ih =>
      rcases List.mem_cons.mp hmem with he | hm
      · subst he
        unfold parseCompLines
        rw [herr]
      · have hrec := ih hm
        unfold parseCompLines
        cases hstep : parseCompLine a with
        | skip => exact hrec
        | err => rfl
        | row r => rw [hrec]; rfl

/-- C6 witness: the amended statement at the concrete two-line
document. -/
theorem c6_amended_witness :
    ["13", "svc", "x9", "2", "7"] ∈
      [["12", "mfg", "3.5", "2", "7"], ["13", "svc", "x9", "2", "7"]] ∧
    parseCompLine ["13", "svc", "x9", "2", "7"] = LineStep.err ∧
    parseCompLines [["12", "mfg", "3.5", "2", "7"],
      ["13", "svc", "x9", "2", "7"]] = Except.error () :=
  ⟨by decide, by decide,
   c6_amended_any_bad_candidate_aborts _ ["13", "svc", "x9", "2", "7"]
     (by decide) (by decide)⟩

/-- C7: parsing a well-formed ComparableIndustry document — every line
either noise (leading token not matching the numeric-code pattern) or a
data line (leading numeric token, at least the 5 required tokens, valid
numeric ratio tokens) — succeeds and yields exactly one ParsedRow per
data line. -/
theorem c7_well_formed_document_row_count (lines : List PyLine)
    (h : ∀ l ∈ lines, noiseLine l = true ∨ wellFormedDataLine l = true) :
    ∃ rows, parseCompLines lines = Except.ok rows ∧
      rows.length = (lines.filter wellFormedDataLine).length := by
  induction lines with
  | nil => exact ⟨[], rfl, rfl⟩
  | cons a rest ih =>
      have ha := h a (List.mem_cons_self a rest)
      have hrest : ∀ l ∈ rest, noiseLine l = true ∨
          wellFormedDataLine l = true :=
        fun l hl => h l (List.mem_cons_of_mem a hl)
      obtain ⟨rows, hok, hlen⟩ := ih hrest
      rcases ha with hn | hw
      · have hskip := parseCompLine_of_noise a hn
        have hwf : wellFormedDataLine a = false := noise_not_wellFormed a hn
        refine ⟨rows, ?_, ?_⟩
        · unfold parseCompLines
          rw [hskip]
          exact hok
        · simp [List.filter_cons, hwf, hlen]
      · obtain ⟨r, hrow⟩ := parseCompLine_of_wellFormed a hw
        refine ⟨r :: rows, ?_, ?_⟩
        · unfold parseCompLines
          rw [hrow, hok]
          rfl
        · simp [List.filter_cons, hw, hlen]

/-- C7 witness: the statement at the concrete five-line document (two
data lines, three noise lines). -/
theorem c7_witness :
    (∀ l ∈ demoDoc, noiseLine l = true ∨ wellFormedDataLine l = true) ∧
    (demoDoc.filter wellFormedDataLine).length = 2 ∧
    (∃ rows, parseCompLines demoDoc = Except.ok rows ∧
      rows.length = (demoDoc.filter wellFormedDataLine).length) :=
  ⟨by decide, by decide, c7_well_formed_document_row_count demoDoc (by decide)⟩

/-- C8 counterexample: the claim says a bulk import for a period leaves
the store with exactly the imported rows for that period. Importing one
row (code 5400) for 2024-06 into a store already holding a 2024-06 row
with code 5300 leaves both rows in the period: the old row survives
because the import only upserts per (year, month, industry_code), it
never deletes the period's other rows. -/
theorem c8_leftover_rows_survive :
    importComparableRows [rowOld] [rowNew] 2024 6 =
      [rowOld, mkSRow 2024 6 rowNew] ∧
    ((importComparableRows [rowOld] [rowNew] 2024 6).filter
      (fun t => t.year == 2024 && t.month == 6)).length = 2 := by
  decide

/-- C8 (amended): the import has upsert-by-key semantics, not
replace-by-period: every stored row whose (year, month, industry_code)
key conflicts with no imported row survives the import — including rows
of the same period with other industry codes — and every imported row's
key is present afterwards. -/
theorem c8_amended_upsert_semantics (store : List SRow) (rows : List CRow)
    (y m : Nat) (s : SRow) (hs : s ∈ store)
    (hnc : ∀ r ∈ rows, sameKey s (mkSRow y m r) = false) :
    s ∈ importComparableRows store rows y m ∧
    ∀ r ∈ rows,
      hasKey (importComparableRows store rows y m) y m r.industry_code
        = true :=
  ⟨mem_importComparableRows rows store y m s hs hnc,
   fun r hr => keys_importComparableRows rows store y m r hr⟩

/-- C8 witness: the amended statement at the concrete one-row store and
one-row import. -/
theorem c8_amended_witness :
    (rowOld ∈ [rowOld] ∧ sameKey rowOld (mkSRow 2024 6 rowNew) = false) ∧
    rowOld ∈ importComparableRows [rowOld] [rowNew] 2024 6 ∧
    (∀ r ∈ [rowNew],
      hasKey (importComparableRows [rowOld] [rowNew] 2024 6) 2024 6
        r.industry_code = true) :=
  ⟨⟨by decide, by decide⟩,
   c8_amended_upsert_semantics [rowOld] [rowNew] 2024 6 rowOld
     (by decide) (by decide)⟩

/-- C9 counterexample: the claim says that under the default
configuration (auto_update = false) no scheduler tick ever runs the
acquisition-and-import pipeline without a human approval action. With
the default configuration, an empty ledger (no approval was ever
recorded) and a tick that detects a comparable-data change, the embedded
_scheduled_check runs the pipeline: the store gains the imported row and
a backup is created. -/
theorem c9_scheduler_autoapplies_without_approval :
    cfgGet smartDefaultConfig "auto_update" = some (CVal.b false) ∧
    scheduledCheck smartDefaultConfig (fun dt => dt == DataType.comparable)
        (fun _ s => (true, s ++ [rowOld])) 99
        { ledger := [], store := [], backups := [] } =
      { ledger := [], store := [rowOld], backups := [99] } := by
  decide

/-- C9 (amended): a scheduler tick runs download_and_process_data
exactly when check_for_updates reports a change; no approval state and
no configuration flag takes part in the decision — the result is the
same under every configuration, even when no record was ever approved. -/
theorem c9_amended_pipeline_gated_only_by_detection (cfg : Config)
    (upd : DataType → Bool)
    (pl : DataType → List SRow → Bool × List SRow) (now : Nat)
    (st : SysState) (hdet : checkForUpdates upd = true)
    (hnoappr : ∀ u ∈ st.ledger, u.adminApproved = false) :
    scheduledCheck cfg upd pl now st =
      (downloadAndProcessData upd pl now st).2 ∧
    ∀ cfg2 : Config,
      scheduledCheck cfg upd pl now st = scheduledCheck cfg2 upd pl now st := by
  constructor
  · unfold scheduledCheck
    rw [hdet, if_pos rfl]
  · intro cfg2
    rfl

/-- C9 witness: the amended statement at the concrete tick with an empty
ledger. -/
theorem c9_amended_witness :
    checkForUpdates (fun dt => dt == DataType.comparable) = true ∧
    scheduledCheck smartDefaultConfig (fun dt => dt == DataType.comparable)
        (fun _ s => (true, s ++ [rowOld])) 99
        { ledger := [], store := [], backups := [] } =
      (downloadAndProcessData (fun dt => dt == DataType.comparable)
        (fun _ s => (true, s ++ [rowOld])) 99
        { ledger := [], store := [], backups := [] }).2 :=
  ⟨by decide,
   (c9_amended_pipeline_gated_only_by_detection smartDefaultConfig
     (fun dt => dt == DataType.comparable) (fun _ s => (true, s ++ [rowOld]))
     99 { ledger := [], store := [], backups := [] } (by decide)
     (by intro u hu; exact absurd hu (List.not_mem_nil u))).1⟩

/-- C10: a non-empty constructor config replaces the defaults entirely
(no merge), so with the CLI runner's three-key config the recognized
options base_url, timeout and max_retries have no value; the KeyError
from the missing key makes every _lightweight_check return false via its
exception handler, and smart_check reports update_available = false for
all three DatasetTypes. -/
theorem c10_override_config_replaces_defaults :
    (∀ c : Config, c ≠ [] → resolveConfig (some c) = c) ∧
    cfgGet runnerConfig "base_url" = none ∧
    cfgGet runnerConfig "timeout" = none ∧
    cfgGet runnerConfig "max_retries" = none ∧
    (∀ (pr : ProbeResult) (led : Ledger) (dt : DataType) (now : Nat),
      lightweightCheck (resolveConfig (some runnerConfig)) pr led dt now
        = false) ∧
    (∀ (probe : DataType → ProbeResult) (led : Ledger) (now : Nat),
      (smartCheck (resolveConfig (some runnerConfig)) probe led now).1 =
        [(DataType.comparable, false), (DataType.dividend, false),
         (DataType.companySize, false)]) := by
  refine ⟨?_, rfl, rfl, rfl, ?_, ?_⟩
  · intro c hc
    show (if c = [] then smartDefaultConfig else c) = c
    rw [if_neg hc]
  · intro pr led dt now
    rfl
  · intro probe led now
    rfl

/-- C10 witness: the statement at the runner's concrete config, an empty
ledger and failing probes. -/
theorem c10_witness :
    (runnerConfig ≠ [] ∧ resolveConfig (some runnerConfig) = runnerConfig) ∧
    (smartCheck (resolveConfig (some runnerConfig))
        (fun _ => ProbeResult.netError) [] 0).1 =
      [(DataType.comparable, false), (DataType.dividend, false),
       (DataType.companySize, false)] :=
  ⟨⟨by decide, c10_override_config_replaces_defaults.1 runnerConfig
      (by decide)⟩,
   c10_override_config_replaces_defaults.2.2.2.2.2
     (fun _ => ProbeResult.netError) [] 0⟩

end StockValuation
